import Mathlib

/-!
Verification of the bejaus-token-backend accounting/settlement core.

This file gives a shallow embedding of the TypeScript services
(`tokenService.ts`, `stripeService`, `perkService.ts`, `voteService.ts`,
`ledgerService`) over an explicit relational-store state, and proves or
refutes the specified properties about them.

Conventions of the embedding:
- The relational store (Prisma) is a record of lists, one per table.
- Timestamps are natural numbers (milliseconds since the Unix epoch).
- A service call takes the store plus any oracle inputs the source reads
  from the outside world (the blockchain outcome, generated row ids,
  `Date.now()`, random bytes) and returns an `Except Err` result paired
  with the possibly-updated store.
- `logger.info` effects that the claims mention are modelled as an
  append-only `logEvents` list; blockchain mint commands issued via the
  SDK are recorded in an append-only `chainCalls` list.
-/

namespace Bejaus

/-- Errors thrown by the services: `CustomError(message, statusCode)` from
the middleware, plus the Prisma unique-violation (P2002) and
record-not-found (P2025) errors that `create`/`update` can throw. -/
inductive Err where
  | custom (message : String) (statusCode : Nat)
  | uniqueViolation (table : String)
  | recordNotFound (table : String)
deriving DecidableEq, Repr

/-- User row: `{id, email, walletAddress?}`. -/
structure User where
  id : String
  email : String
  walletAddress : Option String
deriving DecidableEq, Repr

/-- Order row: `{id, userId, productId, status}` with status one of
"pending" | "completed" | "failed". -/
structure Order where
  id : String
  userId : String
  productId : String
  status : String
deriving DecidableEq, Repr

/-- Mint row: `{id, orderId, userId, tokenAmount, txHash, chainId}`. -/
structure Mint where
  id : String
  orderId : String
  userId : String
  tokenAmount : Nat
  txHash : String
  chainId : Nat
deriving DecidableEq, Repr

/-- Payment row created by the Stripe webhook handler:
`{id, orderId, provider, amountEur, status}`. -/
structure Payment where
  id : String
  orderId : String
  provider : String
  amountEur : ℚ
  status : String
deriving DecidableEq, Repr

/-- Perk row: `{id, name, tokenCost, active}`. -/
structure Perk where
  id : String
  name : String
  tokenCost : Nat
  active : Bool
deriving DecidableEq, Repr

/-- PerkClaim row: `{id, perkId, userId, tokenCost, qrCode, redeemedAt?}`. -/
structure PerkClaim where
  id : String
  perkId : String
  userId : String
  tokenCost : Nat
  qrCode : String
  redeemedAt : Option Nat
deriving DecidableEq, Repr

/-- Vote row: `{id, title, description, startAt, endAt, active}`. -/
structure Vote where
  id : String
  title : String
  description : String
  startAt : Nat
  endAt : Nat
  active : Bool
deriving DecidableEq, Repr

/-- VoteOption row: `{id, voteId, label}`. -/
structure VoteOption where
  id : String
  voteId : String
  label : String
deriving DecidableEq, Repr

/-- VoteBallot row: `{id, voteId, userId, optionId, castAt}`. -/
structure VoteBallot where
  id : String
  voteId : String
  userId : String
  optionId : String
  castAt : Nat
deriving DecidableEq, Repr

/-- Ledger row (`prisma.ledger`):
`{id, kind, refId, direction, amount, currency, metadataJson?, createdAt}`. -/
structure LedgerEntry where
  id : String
  kind : String
  refId : String
  direction : String
  amount : Nat
  currency : String
  metadataJson : Option String
  createdAt : Nat
deriving DecidableEq, Repr

/-- A log event emitted via `logger.info` that the claims care about:
the "Perk redeemed" record carrying the staff actor. -/
inductive LogEvent where
  | perkRedeemed (claimId : String) (perkId : String) (userId : String)
      (staffUserId : String) (redeemedAt : Nat)
deriving DecidableEq, Repr

/-- The relational store plus the externally observable effect logs.
`chainBalances` is the ERC-20 balance oracle (`contract.erc20.balanceOf`),
`chainCalls` records every `contract.erc20.mintTo(address, amount)`
command submitted to the blockchain. -/
structure DB where
  users : List User
  orders : List Order
  mints : List Mint
  payments : List Payment
  perks : List Perk
  claims : List PerkClaim
  votes : List Vote
  options : List VoteOption
  ballots : List VoteBallot
  ledger : List LedgerEntry
  chainBalances : List (String × Nat)
  chainCalls : List (String × Nat)
  logEvents : List LogEvent
deriving DecidableEq, Repr

/-- The empty store. -/
def DB.empty : DB :=
  ⟨[], [], [], [], [], [], [], [], [], [], [], [], []⟩

/-- Well-formedness of the store: primary keys are unique, as guaranteed
by the relational database. -/
def DB.wf (db : DB) : Prop :=
  (db.users.map User.id).Nodup ∧
  (db.orders.map Order.id).Nodup ∧
  (db.perks.map Perk.id).Nodup ∧
  (db.claims.map PerkClaim.id).Nodup ∧
  (db.votes.map Vote.id).Nodup ∧
  (db.options.map VoteOption.id).Nodup ∧
  (db.ballots.map VoteBallot.id).Nodup

instance (db : DB) : Decidable db.wf := by
  unfold DB.wf; infer_instance

instance {ε α : Type} [DecidableEq ε] [DecidableEq α] : DecidableEq (Except ε α) :=
  fun a b =>
    match a, b with
    | Except.ok x, Except.ok y =>
        if h : x = y then isTrue (by rw [h])
        else isFalse (by intro hh; cases hh; exact h rfl)
    | Except.error x, Except.error y =>
        if h : x = y then isTrue (by rw [h])
        else isFalse (by intro hh; cases hh; exact h rfl)
    | Except.ok _, Except.error _ => isFalse (by intro hh; cases hh)
    | Except.error _, Except.ok _ => isFalse (by intro hh; cases hh)

/-- Outcome of the external blockchain mint command
(`contract.erc20.mintTo`): either a transaction receipt hash, or a
rejection/timeout that surfaces as a thrown error. -/
inductive ChainOutcome where
  | success (txHash : String)
  | failure (message : String)
deriving DecidableEq, Repr

/-- Result shape of `TokenService.mintTokens`. -/
structure MintResult where
  txHash : String
  success : Bool
deriving DecidableEq, Repr

/-- `contract.erc20.balanceOf(walletAddress)`: the external balance
oracle, looked up in the `chainBalances` table (0 when absent). -/
def getTokenBalance (db : DB) (walletAddress : String) : Nat :=
  (((db.chainBalances.find? (fun p => p.1 == walletAddress)).map Prod.snd).getD 0)

/-- Set the status of every order with the given id to "failed"
(`prisma.order.updateMany({where: {id: orderId}, data: {status: "failed"}})`
from the catch block of `mintTokens` — note: filtered by id only). -/
def DB.failOrder (db : DB) (orderId : String) : DB :=
  { db with
    orders := db.orders.map (fun o =>
      if o.id == orderId then { o with status := "failed" } else o) }

/-- `TokenService.mintTokens(orderId, userId, tokenAmount, recipientAddress?)`.

Faithful to the source: it resolves the target address (explicit recipient,
else the user's wallet, else a 400 error), submits the blockchain mint
command, records the Mint row, and sets the order "completed" if it was
"pending".  There is no lookup of an existing Mint row before submitting.
On any thrown error the catch block sets the order's status to "failed"
(matching by id only) and rethrows.  No ledger entry is written.

The Mint-row insert enforces a unique `orderId`.  Modelled from the spec:
the Prisma schema is not part of the provided sources; §6 of the spec
states "`Mint.orderId` must be unique (idempotency)", so `create` throws a
unique-violation error when a Mint row for the order already exists. -/
def mintTokens (db : DB) (orderId userId : String) (tokenAmount : Nat)
    (recipientAddress : Option String) (chain : ChainOutcome)
    (newMintId : String) : Except Err MintResult × DB :=
  let walletAddress :=
    (db.users.find? (fun u => u.id == userId)).bind User.walletAddress
  let targetAddress? :=
    match recipientAddress with
    | some a => some a
    | none => walletAddress
  match targetAddress? with
  | none =>
      (Except.error (Err.custom "Usuario sin dirección de wallet" 400),
       db.failOrder orderId)
  | some targetAddress =>
      let db1 : DB := { db with chainCalls := db.chainCalls ++ [(targetAddress, tokenAmount)] }
      match chain with
      | ChainOutcome.failure message =>
          (Except.error (Err.custom message 500), db1.failOrder orderId)
      | ChainOutcome.success txHash =>
          if db1.mints.any (fun m => m.orderId == orderId) then
            (Except.error (Err.uniqueViolation "Mint"), db1.failOrder orderId)
          else
            let db2 : DB := { db1 with
              mints := db1.mints ++
                [{ id := newMintId, orderId := orderId, userId := userId,
                   tokenAmount := tokenAmount, txHash := txHash, chainId := 137 }] }
            let db3 : DB := { db2 with
              orders := db2.orders.map (fun o =>
                if o.id == orderId && o.status == "pending" then
                  { o with status := "completed" }
                else o) }
            (Except.ok { txHash := txHash, success := true }, db3)

/-- The metadata and amount of a Stripe `checkout.session.completed`
event, as read by `handleCheckoutCompleted` (`session.metadata` fields
and `session.amount_total` in cents). -/
structure CheckoutSession where
  orderId : Option String
  userId : Option String
  productId : Option String
  tokenAmount : Option String
  amountTotal : Option Nat
deriving DecidableEq, Repr

/-- `StripeService.handleCheckoutCompleted(session)`.

Faithful to the source: it requires the four metadata fields, then
unconditionally updates the order's status to "completed"
(`prisma.order.update` — throws record-not-found when the order does not
exist, and does not check the prior status), and creates a new Payment
row.  There is no lookup of a prior delivery, no transaction, and no
ledger entry. -/
def handleCheckoutCompleted (db : DB) (session : CheckoutSession)
    (newPaymentId : String) : Except Err Unit × DB :=
  match session.orderId, session.userId, session.productId, session.tokenAmount with
  | some orderId, some _, some _, some _ =>
      if db.orders.any (fun o => o.id == orderId) then
        let db1 : DB := { db with
          orders := db.orders.map (fun o =>
            if o.id == orderId then { o with status := "completed" } else o) }
        let amountEur : ℚ :=
          match session.amountTotal with
          | some total => (total : ℚ) / 100
          | none => 0
        let db2 : DB := { db1 with
          payments := db1.payments ++
            [{ id := newPaymentId, orderId := orderId, provider := "stripe",
               amountEur := amountEur, status := "completed" }] }
        (Except.ok (), db2)
      else
        (Except.error (Err.recordNotFound "Order"), db)
  | _, _, _, _ =>
      (Except.error (Err.custom "Metadata incompleta en la sesión de Stripe" 500), db)

/-- The base-36 digit alphabet used by JavaScript Number.toString(36):
0-9 then lowercase a-z. -/
def base36Digit (d : Nat) : Char :=
  if d < 10 then Char.ofNat (48 + d) else Char.ofNat (87 + d)

/-- Accumulator loop for base-36 rendering (most significant digit
first); structurally recursive on a fuel bound so the kernel can
evaluate it (`n` itself is always enough fuel). -/
def natToBase36Aux : Nat → Nat → List Char → List Char
  | 0, _, acc => acc
  | _ + 1, 0, acc => acc
  | fuel + 1, n + 1, acc =>
      natToBase36Aux fuel ((n + 1) / 36) (base36Digit ((n + 1) % 36) :: acc)

/-- JavaScript `n.toString(36)` for natural numbers. -/
def natToBase36 (n : Nat) : String :=
  if n = 0 then "0" else String.mk (natToBase36Aux n n [])

/-- `PerkService.generateQRCode()`: builds
`PERK_<Date.now() in base36>_<8 random bytes in hex>` and uppercases it
(characterwise, as `toUpperCase` does on ASCII).  The current time and
the random hex string are oracle inputs. -/
def generateQRCode (timestampMs : Nat) (random : String) : String :=
  String.mk (("PERK_" ++ natToBase36 timestampMs ++ "_" ++ random).data.map Char.toUpper)

/-- `PerkService.getPerkById(perkId)`: `findUnique({where: {id, active: true}})`,
404 when no active perk with that id exists. -/
def getPerkById (db : DB) (perkId : String) : Except Err Perk :=
  match db.perks.find? (fun p => p.id == perkId && p.active) with
  | none => Except.error (Err.custom "Perk no encontrado" 404)
  | some p => Except.ok p

/-- `PerkService.claimPerk(perkId, userId)`.

Faithful to the source: fetches the active perk (404 otherwise), requires
the user to have a wallet address, reads the balance through the external
oracle and requires it to cover the perk's token cost, then generates the
QR code and persists the claim carrying the perk's `tokenCost`.  No
ledger entry is written.

The claim insert enforces a unique `qrCode`.  Modelled from the spec: the
Prisma schema is not part of the provided sources; §6 of the spec states
"`(perkClaim.qrCode)` must be unique", so `create` throws a
unique-violation error when another claim already carries the code. -/
def claimPerk (db : DB) (perkId userId : String) (timestampMs : Nat)
    (random : String) (newClaimId : String) : Except Err PerkClaim × DB :=
  match getPerkById db perkId with
  | Except.error e => (Except.error e, db)
  | Except.ok perk =>
      match (db.users.find? (fun u => u.id == userId)).bind User.walletAddress with
      | none => (Except.error (Err.custom "Usuario sin dirección de wallet" 400), db)
      | some wallet =>
          let balance := getTokenBalance db wallet
          if balance < perk.tokenCost then
            (Except.error (Err.custom "Saldo insuficiente para reclamar este perk" 400), db)
          else
            let qrCode := generateQRCode timestampMs random
            if db.claims.any (fun c => c.qrCode == qrCode) then
              (Except.error (Err.uniqueViolation "PerkClaim"), db)
            else
              let claim : PerkClaim :=
                { id := newClaimId, perkId := perkId, userId := userId,
                  tokenCost := perk.tokenCost, qrCode := qrCode, redeemedAt := none }
              (Except.ok claim, { db with claims := db.claims ++ [claim] })

/-- `PerkService.redeemPerk(claimId, staffUserId)`.

Faithful to the source: fetches the claim (404 when absent), rejects with
a 400 "Perk ya ha sido canjeado" error when `redeemedAt` is already set,
and otherwise stamps `redeemedAt` with the current time and logs the
"Perk redeemed" event carrying the staff actor. -/
def redeemPerk (db : DB) (claimId staffUserId : String) (now : Nat) :
    Except Err PerkClaim × DB :=
  match db.claims.find? (fun c => c.id == claimId) with
  | none => (Except.error (Err.custom "Claim no encontrado" 404), db)
  | some claim =>
      match claim.redeemedAt with
      | some _ => (Except.error (Err.custom "Perk ya ha sido canjeado" 400), db)
      | none =>
          (Except.ok { claim with redeemedAt := some now },
           { db with
             claims := db.claims.map (fun c =>
               if c.id == claimId then { c with redeemedAt := some now } else c),
             logEvents := db.logEvents ++
               [LogEvent.perkRedeemed claimId claim.perkId claim.userId staffUserId now] })

/-- `PerkService.deletePerk(perkId)`: a soft delete —
`prisma.perk.update({where: {id}, data: {active: false}})`.  It performs
no check of existing claims; `update` throws record-not-found when the
perk does not exist and otherwise always succeeds. -/
def deletePerk (db : DB) (perkId : String) : Except Err Unit × DB :=
  if db.perks.any (fun p => p.id == perkId) then
    (Except.ok (),
     { db with perks := db.perks.map (fun p =>
         if p.id == perkId then { p with active := false } else p) })
  else
    (Except.error (Err.recordNotFound "Perk"), db)

/-- `VoteService.castBallot(voteId, userId, {optionId})`.

Faithful to the source: fetches the vote (404 when absent), rejects when
the current time lies outside `[startAt, endAt]` or the vote's `active`
flag is false, rejects a second ballot from the same `(voteId, userId)`
pair with a 400 "Usuario ya ha votado" error, rejects an option that does
not belong to the vote, and otherwise persists the ballot. -/
def castBallot (db : DB) (voteId userId optionId : String) (now : Nat)
    (newBallotId : String) : Except Err VoteBallot × DB :=
  match db.votes.find? (fun v => v.id == voteId) with
  | none => (Except.error (Err.custom "Votación no encontrada" 404), db)
  | some vote =>
      if now < vote.startAt || now > vote.endAt then
        (Except.error (Err.custom "Votación no está activa" 400), db)
      else if !vote.active then
        (Except.error (Err.custom "Votación inactiva" 400), db)
      else
        match db.ballots.find? (fun b => b.voteId == voteId && b.userId == userId) with
        | some _ =>
            (Except.error (Err.custom "Usuario ya ha votado en esta votación" 400), db)
        | none =>
            match db.options.find? (fun o => o.id == optionId && o.voteId == voteId) with
            | none => (Except.error (Err.custom "Opción de voto inválida" 400), db)
            | some _ =>
                let ballot : VoteBallot :=
                  { id := newBallotId, voteId := voteId, userId := userId,
                    optionId := optionId, castAt := now }
                (Except.ok ballot, { db with ballots := db.ballots ++ [ballot] })

/-- `VoteService.removeVoteOption(optionId)`: counts the ballots
referencing the option and rejects the removal when any exist; otherwise
deletes the option (`delete` throws record-not-found when absent). -/
def removeVoteOption (db : DB) (optionId : String) : Except Err Unit × DB :=
  let ballotsCount := (db.ballots.filter (fun b => b.optionId == optionId)).length
  if ballotsCount > 0 then
    (Except.error (Err.custom "No se puede eliminar una opción que ya tiene votos" 400), db)
  else if db.options.any (fun o => o.id == optionId) then
    (Except.ok (), { db with options := db.options.filter (fun o => !(o.id == optionId)) })
  else
    (Except.error (Err.recordNotFound "VoteOption"), db)

/-- Number of ballots referencing an option (`_count.ballots`). -/
def countBallots (db : DB) (optionId : String) : Nat :=
  (db.ballots.filter (fun b => b.optionId == optionId)).length

/-- One row of `getVoteResults`' per-option output. -/
structure OptionResult where
  id : String
  label : String
  votes : Nat
  percentage : ℚ
deriving DecidableEq, Repr

/-- The result shape of `getVoteResults`. -/
structure VoteResults where
  voteId : String
  title : String
  totalVotes : Nat
  results : List OptionResult
deriving DecidableEq, Repr

/-- `VoteService.getVoteResults(voteId)`.

Faithful to the source: fetches the vote (404 when absent), lists the
vote's options with their ballot counts ordered by count descending, sums
the counts into `totalVotes`, and computes each percentage as
`votes / totalVotes * 100`, with 0 whenever `totalVotes` is 0. -/
def getVoteResults (db : DB) (voteId : String) : Except Err VoteResults :=
  match db.votes.find? (fun v => v.id == voteId) with
  | none => Except.error (Err.custom "Votación no encontrada" 404)
  | some vote =>
      let counted := (db.options.filter (fun o => o.voteId == voteId)).map
        (fun o => (o, countBallots db o.id))
      let sorted := counted.insertionSort (fun a b => b.2 ≤ a.2)
      let totalVotes : Nat := (sorted.map (fun oc => oc.2)).sum
      let results := sorted.map (fun oc =>
        { id := oc.1.id, label := oc.1.label, votes := oc.2,
          percentage :=
            if totalVotes > 0 then ((oc.2 : ℚ) / (totalVotes : ℚ)) * 100 else 0
          : OptionResult })
      Except.ok
        { voteId := vote.id, title := vote.title,
          totalVotes := totalVotes, results := results }

/-- Two-digit zero padding. -/
def pad2 (n : Nat) : String :=
  if n < 10 then "0" ++ toString n else toString n

/-- Three-digit zero padding (milliseconds). -/
def pad3 (n : Nat) : String :=
  if n < 10 then "00" ++ toString n
  else if n < 100 then "0" ++ toString n
  else toString n

/-- Four-digit zero padding (years). -/
def pad4 (n : Nat) : String :=
  if n < 10 then "000" ++ toString n
  else if n < 100 then "00" ++ toString n
  else if n < 1000 then "0" ++ toString n
  else toString n

/-- Era index for the civil-date conversion (400-year blocks). -/
def civilEra (z0 : Nat) : Nat :=
  (z0 + 719468) / 146097

/-- Day of era for the civil-date conversion. -/
def civilDoe (z0 : Nat) : Nat :=
  (z0 + 719468) % 146097

/-- Year of era for the civil-date conversion. -/
def civilYoe (z0 : Nat) : Nat :=
  (civilDoe z0 - civilDoe z0 / 1460 + civilDoe z0 / 36524 - civilDoe z0 / 146096) / 365

/-- Day of year (March-based) for the civil-date conversion. -/
def civilDoy (z0 : Nat) : Nat :=
  civilDoe z0 - (365 * civilYoe z0 + civilYoe z0 / 4 - civilYoe z0 / 100)

/-- March-based month index for the civil-date conversion. -/
def civilMp (z0 : Nat) : Nat :=
  (5 * civilDoy z0 + 2) / 153

/-- Civil (year, month, day) from a count of days since 1970-01-01,
following the standard era-based conversion (valid for dates on or after
the epoch, which is all the store can hold with Nat timestamps). -/
def civilFromDays (z0 : Nat) : Nat × Nat × Nat :=
  let y := civilYoe z0 + civilEra z0 * 400
  let d := civilDoy z0 - (153 * civilMp z0 + 2) / 5 + 1
  let m := if civilMp z0 < 10 then civilMp z0 + 3 else civilMp z0 - 9
  (if m ≤ 2 then y + 1 else y, m, d)

/-- JavaScript `Date.prototype.toISOString()`: the UTC timestamp rendered
as `YYYY-MM-DDTHH:MM:SS.mmmZ`, from milliseconds since the epoch. -/
def isoString (ms : Nat) : String :=
  let days := ms / 86400000
  let rem := ms % 86400000
  let ymd := civilFromDays days
  pad4 ymd.1 ++ "-" ++ pad2 ymd.2.1 ++ "-" ++ pad2 ymd.2.2 ++ "T" ++
    pad2 (rem / 3600000) ++ ":" ++ pad2 (rem % 3600000 / 60000) ++ ":" ++
    pad2 (rem % 60000 / 1000) ++ "." ++ pad3 (rem % 1000) ++ "Z"

/-- The `replace(/"/g, '""')` escaping applied to the metadata field. -/
def escapeQuotes : List Char → List Char
  | [] => []
  | c :: t => if c = '"' then '"' :: '"' :: escapeQuotes t else c :: escapeQuotes t

/-- The CSV metadata field: empty for a null `metadataJson`, otherwise the
JSON text with quotes doubled, wrapped in quotes. -/
def renderMetadata : Option String → String
  | none => ""
  | some m => "\"" ++ String.mk (escapeQuotes m.data) ++ "\""

/-- One CSV data row of `exportLedgerCSV`, in the source's field order:
id, kind, refId, direction, amount, currency, metadata, createdAt. -/
def renderRow (e : LedgerEntry) : String :=
  e.id ++ "," ++ e.kind ++ "," ++ e.refId ++ "," ++ e.direction ++ "," ++
    toString e.amount ++ "," ++ e.currency ++ "," ++
    renderMetadata e.metadataJson ++ "," ++ isoString e.createdAt

/-- The exact header row (with its trailing newline) from the source. -/
def csvHeaders : String :=
  "ID,Kind,Reference ID,Direction,Amount,Currency,Metadata,Created At\n"

/-- `rows.join("\n")`. -/
def joinNL : List String → String
  | [] => ""
  | [s] => s
  | s :: t => s ++ "\n" ++ joinNL t

/-- The entries `exportLedgerCSV` renders, in order: the ledger filtered
by the optional date range and sorted by `createdAt` descending. -/
def exportRows (db : DB) (startDate endDate : Option Nat) : List LedgerEntry :=
  let filtered := db.ledger.filter (fun e =>
    (match startDate with | some s => decide (s ≤ e.createdAt) | none => true) &&
    (match endDate with | some t => decide (e.createdAt ≤ t) | none => true))
  filtered.insertionSort (fun a b => b.createdAt ≤ a.createdAt)

/-- `LedgerService.exportLedgerCSV(dateRange?)`: the header row followed
by one rendered row per ledger entry in the date range, newest first. -/
def exportLedgerCSV (db : DB) (startDate endDate : Option Nat) : String :=
  csvHeaders ++ joinNL ((exportRows db startDate endDate).map renderRow)

/-- A standard CSV field scanner for one line: `mode` is true inside a
quoted section, `acc` holds the current field's characters reversed.
Doubled quotes inside a quoted section decode to one quote. -/
def parseLine (mode : Bool) (acc : List Char) : List Char → List String
  | [] => [String.mk acc.reverse]
  | c :: t =>
      if mode then
        if c = '"' then
          match t with
          | '"' :: t2 => parseLine true ('"' :: acc) t2
          | [] => parseLine false acc []
          | c2 :: t2 => parseLine false acc (c2 :: t2)
        else parseLine true (c :: acc) t
      else
        if c = ',' then String.mk acc.reverse :: parseLine false [] t
        else if c = '"' then parseLine true acc t
        else parseLine false (c :: acc) t
termination_by l => l.length
decreasing_by all_goals simp_wf <;> omega

/-- Split a character list on newlines (always returns at least one line;
a trailing newline yields a trailing empty line). -/
def splitOnNL : List Char → List (List Char)
  | [] => [[]]
  | c :: t =>
      if c = '\n' then [] :: splitOnNL t
      else
        match splitOnNL t with
        | [] => [[c]]
        | l :: ls => (c :: l) :: ls

/-- Re-parse a CSV document: split into lines, drop the empty line a
trailing newline produces, and scan each line's fields. -/
def parseCSV (s : String) : List (List String) :=
  let lines := splitOnNL s.data
  let lines := if lines.getLast? = some [] then lines.dropLast else lines
  lines.map (fun l => parseLine false [] l)

/-- The field values of an entry as the CSV re-parse should recover them
(null metadata reads back as the empty field). -/
def entryFields (e : LedgerEntry) : List String :=
  [e.id, e.kind, e.refId, e.direction, toString e.amount, e.currency,
   e.metadataJson.getD "", isoString e.createdAt]

/-- The parsed header row. -/
def headerFields : List String :=
  ["ID", "Kind", "Reference ID", "Direction", "Amount", "Currency",
   "Metadata", "Created At"]

/-- True of a string that contains no comma, quote or newline, so that it
survives as an unquoted CSV field. -/
def csvPlain (s : String) : Bool :=
  s.data.all (fun c => !(c = ',' || c = '"' || c = '\n'))

/-- The CSV-safety side condition for one entry: every unquoted field is
free of commas, quotes and newlines, and the (quoted) metadata field is
free of literal newlines.  Commas and quotes are allowed in the metadata.
All values the system actually writes (cuids, fixed kinds, "in"/"out",
digit strings, "EUR"/"TOKEN", ISO timestamps, JSON text) satisfy this. -/
def csvSafe (e : LedgerEntry) : Bool :=
  csvPlain e.id && csvPlain e.kind && csvPlain e.refId && csvPlain e.direction &&
    csvPlain (toString e.amount) && csvPlain e.currency &&
    csvPlain (isoString e.createdAt) &&
    (match e.metadataJson with
     | none => true
     | some m => m.data.all (fun c => !(c = '\n')))

/-- Per-call progress of one in-flight `redeemPerk` invocation, used to
model two concurrent invocations: the source performs a `findUnique`
read, a check of the snapshot, and an unconditional `update` keyed only
on the claim id. -/
inductive RedeemRes where
  | pending
  | okAt (redeemedAt : Nat)
  | notFound
  | alreadyRedeemed
deriving DecidableEq, Repr

/-- One in-flight `redeemPerk(claimId, staffUserId)` call: `readClaim`
holds the `findUnique` snapshot once the read step has executed. -/
structure RedeemProc where
  claimId : String
  staffUserId : String
  now : Nat
  readClaim : Option (Option PerkClaim)
  res : RedeemRes
deriving DecidableEq, Repr

/-- A fresh invocation that has not yet read. -/
def RedeemProc.start (claimId staffUserId : String) (now : Nat) : RedeemProc :=
  { claimId := claimId, staffUserId := staffUserId, now := now,
    readClaim := none, res := RedeemRes.pending }

/-- Two concurrent `redeemPerk` calls against one store.  `updates`
counts how many times the `perkClaim.update` statement has executed. -/
structure ConcState where
  db : DB
  procA : RedeemProc
  procB : RedeemProc
  updates : Nat
deriving DecidableEq, Repr

/-- Execute one atomic database access of one in-flight call: first the
`findUnique` read, then — based on the snapshot, exactly as the source
checks it — either a terminal error or the unconditional `update` of the
claim keyed by id.  A finished call does nothing. -/
def stepProc (db : DB) (p : RedeemProc) (updates : Nat) :
    DB × RedeemProc × Nat :=
  match p.readClaim with
  | none =>
      (db, { p with readClaim := some (db.claims.find? (fun c => c.id == p.claimId)) },
       updates)
  | some snapshot =>
      match p.res with
      | RedeemRes.pending =>
          match snapshot with
          | none => (db, { p with res := RedeemRes.notFound }, updates)
          | some claim =>
              match claim.redeemedAt with
              | some _ => (db, { p with res := RedeemRes.alreadyRedeemed }, updates)
              | none =>
                  ({ db with
                     claims := db.claims.map (fun c =>
                       if c.id == p.claimId then { c with redeemedAt := some p.now } else c),
                     logEvents := db.logEvents ++
                       [LogEvent.perkRedeemed p.claimId claim.perkId claim.userId
                         p.staffUserId p.now] },
                   { p with res := RedeemRes.okAt p.now }, updates + 1)
      | _ => (db, p, updates)

/-- Let the scheduled call (true = A, false = B) take one atomic step. -/
def stepConc (s : ConcState) (which : Bool) : ConcState :=
  if which then
    let r := stepProc s.db s.procA s.updates
    { s with db := r.1, procA := r.2.1, updates := r.2.2 }
  else
    let r := stepProc s.db s.procB s.updates
    { s with db := r.1, procB := r.2.1, updates := r.2.2 }

/-- Run an interleaving schedule over the two concurrent calls. -/
def runSchedule (s : ConcState) : List Bool → ConcState :=
  List.foldl stepConc s

/-- Concrete store: one user with a wallet and one pending order. -/
def dbSeed : DB :=
  { DB.empty with
    users := [{ id := "u1", email := "ana@example.com", walletAddress := some "0xabc" }],
    orders := [{ id := "o1", userId := "u1", productId := "p1", status := "pending" }] }

/-- A `checkout.session.completed` event for order o1 (50.00 EUR). -/
def sessO1 : CheckoutSession :=
  { orderId := some "o1", userId := some "u1", productId := some "p1",
    tokenAmount := some "100", amountTotal := some 5000 }

/-- Concrete store: an active perk that already has one unredeemed claim. -/
def dbPerkClaimed : DB :=
  { DB.empty with
    perks := [{ id := "pk1", name := "Coffee", tokenCost := 5, active := true }],
    claims := [{ id := "c1", perkId := "pk1", userId := "u1", tokenCost := 5,
                 qrCode := "PERK_X_Y", redeemedAt := none }] }

/-- Two concurrent `redeemPerk("c1", _)` calls (staff1 at time 5, staff2
at time 7) against the store with one unredeemed claim. -/
def concTwoRedeems : ConcState :=
  { db := dbPerkClaimed, procA := RedeemProc.start "c1" "staff1" 5,
    procB := RedeemProc.start "c1" "staff2" 7, updates := 0 }

/-- Concrete store for the redeem claims: one unredeemed claim and one
claim already redeemed at time 3. -/
def dbRedeem : DB :=
  { DB.empty with
    perks := [{ id := "pk1", name := "Coffee", tokenCost := 5, active := true }],
    claims := [{ id := "c1", perkId := "pk1", userId := "u1", tokenCost := 5,
                 qrCode := "PERK_X_Y", redeemedAt := none },
               { id := "c2", perkId := "pk1", userId := "u2", tokenCost := 5,
                 qrCode := "PERK_X_Z", redeemedAt := some 3 }] }

/-- Concrete store for the voting claims: one active vote with options A
and B, ballots A:3 and B:1. -/
def dbVote : DB :=
  { DB.empty with
    votes := [{ id := "v1", title := "T", description := "D",
                startAt := 0, endAt := 10, active := true }],
    options := [{ id := "A", voteId := "v1", label := "Option A" },
                { id := "B", voteId := "v1", label := "Option B" }],
    ballots := [{ id := "b1", voteId := "v1", userId := "u1", optionId := "A", castAt := 1 },
                { id := "b2", voteId := "v1", userId := "u2", optionId := "A", castAt := 1 },
                { id := "b3", voteId := "v1", userId := "u3", optionId := "A", castAt := 1 },
                { id := "b4", voteId := "v1", userId := "u4", optionId := "B", castAt := 1 }] }

/-- Concrete store for the claim-perk witness: a user with a wallet
holding 7 tokens, and an active perk costing 5. -/
def dbPerkWallet : DB :=
  { DB.empty with
    users := [{ id := "u1", email := "ana@example.com", walletAddress := some "0xabc" }],
    perks := [{ id := "pk1", name := "Coffee", tokenCost := 5, active := true }],
    chainBalances := [("0xabc", 7)] }

/-- Concrete store for the CSV witness: two ledger entries, one with a
metadata value containing commas and quotes. -/
def dbLedgerTwo : DB :=
  { DB.empty with
    ledger := [{ id := "e1", kind := "payment", refId := "o1", direction := "in",
                 amount := 50, currency := "EUR",
                 metadataJson := some "\x7b\"status\":\"completed\",\"provider\":\"stripe\"\x7d",
                 createdAt := 1700000000000 },
               { id := "e2", kind := "mint", refId := "o1", direction := "out",
                 amount := 100, currency := "TOKEN", metadataJson := none,
                 createdAt := 1700000001000 }] }

/-- Concrete store for the removal claims: a perk with a claim, and a
vote option referenced by one ballot. -/
def dbRemoval : DB :=
  { DB.empty with
    perks := [{ id := "pk1", name := "Coffee", tokenCost := 5, active := true }],
    claims := [{ id := "c1", perkId := "pk1", userId := "u1", tokenCost := 5,
                 qrCode := "PERK_X_Y", redeemedAt := none }],
    votes := [{ id := "v1", title := "T", description := "D",
                startAt := 0, endAt := 10, active := true }],
    options := [{ id := "A", voteId := "v1", label := "Option A" }],
    ballots := [{ id := "b1", voteId := "v1", userId := "u1", optionId := "A", castAt := 1 }] }

/-- The tally `getVoteResults` computes on the concrete vote store. -/
def resultsAB : VoteResults :=
  match getVoteResults dbVote "v1" with
  | Except.ok r => r
  | Except.error _ => { voteId := "", title := "", totalVotes := 0, results := [] }

/-- C1: the claimed mint idempotency fails on the code.  `mintTokens`
performs no lookup of an existing Mint row: on a store where the first
call for order o1 already succeeded (one Mint row, one chain command),
a second call for the same orderId submits a second blockchain mint
command (chainCalls grows to 2), then fails on the unique Mint.orderId
insert instead of returning the stored txHash, and downgrades the order
to "failed".  Moreover no call ever writes a "mint" ledger entry: the
ledger stays empty, where the claim requires exactly one entry. -/
theorem c1_mint_not_exactly_once :
    (mintTokens dbSeed "o1" "u1" 100 none (ChainOutcome.success "0xtx1") "m1").1 =
      Except.ok { txHash := "0xtx1", success := true } ∧
    (mintTokens dbSeed "o1" "u1" 100 none (ChainOutcome.success "0xtx1") "m1").2.mints.length = 1 ∧
    (mintTokens dbSeed "o1" "u1" 100 none (ChainOutcome.success "0xtx1") "m1").2.chainCalls.length = 1 ∧
    (mintTokens dbSeed "o1" "u1" 100 none (ChainOutcome.success "0xtx1") "m1").2.ledger = [] ∧
    (mintTokens (mintTokens dbSeed "o1" "u1" 100 none (ChainOutcome.success "0xtx1") "m1").2
        "o1" "u1" 100 none (ChainOutcome.success "0xtx2") "m2").1 =
      Except.error (Err.uniqueViolation "Mint") ∧
    (mintTokens (mintTokens dbSeed "o1" "u1" 100 none (ChainOutcome.success "0xtx1") "m1").2
        "o1" "u1" 100 none (ChainOutcome.success "0xtx2") "m2").2.chainCalls.length = 2 ∧
    (mintTokens (mintTokens dbSeed "o1" "u1" 100 none (ChainOutcome.success "0xtx1") "m1").2
        "o1" "u1" 100 none (ChainOutcome.success "0xtx2") "m2").2.mints.length = 1 ∧
    (mintTokens (mintTokens dbSeed "o1" "u1" 100 none (ChainOutcome.success "0xtx1") "m1").2
        "o1" "u1" 100 none (ChainOutcome.success "0xtx2") "m2").2.ledger = [] ∧
    (mintTokens (mintTokens dbSeed "o1" "u1" 100 none (ChainOutcome.success "0xtx1") "m1").2
        "o1" "u1" 100 none (ChainOutcome.success "0xtx2") "m2").2.orders.map Order.status =
      ["failed"] := by
  decide

/-- C2: the claimed settlement idempotency fails on the code.  A first
delivery of the checkout-completed event for order o1 marks the order
completed and creates a Payment row but writes no ledger entry; a
re-delivered event is not a no-op: it creates a second Payment row.  The
status update is also not guarded by the "pending" status: an order
already in "failed" state is flipped to "completed" as well. -/
theorem c2_settle_not_idempotent :
    (handleCheckoutCompleted dbSeed sessO1 "pay1").1 = Except.ok () ∧
    (handleCheckoutCompleted dbSeed sessO1 "pay1").2.orders.map Order.status = ["completed"] ∧
    (handleCheckoutCompleted dbSeed sessO1 "pay1").2.payments.length = 1 ∧
    (handleCheckoutCompleted dbSeed sessO1 "pay1").2.ledger = [] ∧
    (handleCheckoutCompleted (handleCheckoutCompleted dbSeed sessO1 "pay1").2 sessO1 "pay2").1 =
      Except.ok () ∧
    (handleCheckoutCompleted (handleCheckoutCompleted dbSeed sessO1 "pay1").2 sessO1
        "pay2").2.payments.length = 2 ∧
    (handleCheckoutCompleted (handleCheckoutCompleted dbSeed sessO1 "pay1").2 sessO1
        "pay2").2.ledger = [] ∧
    (handleCheckoutCompleted (dbSeed.failOrder "o1") sessO1 "pay9").2.orders.map Order.status =
      ["completed"] := by
  decide

/-- C9: the claimed serialization of concurrent redeems fails on the
code.  The source checks `redeemedAt` on a `findUnique` snapshot and
then updates keyed only on the claim id — no compare-and-set.  Under the
interleaving where both calls read before either writes, both calls
succeed, the update statement runs twice, and `redeemedAt` is
overwritten by the second writer; only the fully serialized schedule
produces one success and one AlreadyRedeemed. -/
theorem c9_concurrent_redeem_not_serialized :
    (runSchedule concTwoRedeems [true, false, true, false]).procA.res = RedeemRes.okAt 5 ∧
    (runSchedule concTwoRedeems [true, false, true, false]).procB.res = RedeemRes.okAt 7 ∧
    (runSchedule concTwoRedeems [true, false, true, false]).updates = 2 ∧
    (runSchedule concTwoRedeems [true, false, true, false]).db.claims.map PerkClaim.redeemedAt =
      [some 7] ∧
    (runSchedule concTwoRedeems [true, true, false, false]).procA.res = RedeemRes.okAt 5 ∧
    (runSchedule concTwoRedeems [true, true, false, false]).procB.res =
      RedeemRes.alreadyRedeemed ∧
    (runSchedule concTwoRedeems [true, true, false, false]).updates = 1 := by
  decide

/-- A `findUnique` on a table whose keys are unique returns exactly the
row carrying the key. -/
theorem find?_key_unique {α : Type} (key : α → String) (k : String) (x : α)
    (hk : key x = k) :
    ∀ l : List α, (l.map key).Nodup → x ∈ l →
      l.find? (fun y => key y == k) = some x := by
  intro l
  induction l with
  | nil => intro _ hx; cases hx
  | cons a t ih =>
      intro hnd hx
      rw [List.map_cons, List.nodup_cons] at hnd
      rcases List.mem_cons.mp hx with rfl | hxt
      · exact List.find?_cons_of_pos t (by simp [hk])
      · have hka : ¬(key a == k) = true := by
          simp only [beq_iff_eq]
          intro hh
          apply hnd.1
          have hmem : key x ∈ t.map key := List.mem_map_of_mem key hxt
          rwa [hk, ← hh] at hmem
        rw [List.find?_cons_of_neg t hka]
        exact ih hnd.2 hxt

/-- C10: whenever `mintTokens` throws — missing wallet, rejected
blockchain call, or failure while persisting the Mint row — its catch
block updates the referenced order's status to "failed" filtered only by
order id (`updateMany({where: {id: orderId}})`), not by current status,
before rethrowing; so any order with that id, whatever its prior status
(including "completed"), ends up "failed". -/
theorem c10_mint_error_path (db : DB) (orderId userId : String) (tokenAmount : Nat)
    (recipientAddress : Option String) (chain : ChainOutcome) (newMintId : String) (e : Err)
    (h : (mintTokens db orderId userId tokenAmount recipientAddress chain newMintId).1 =
      Except.error e) :
    (mintTokens db orderId userId tokenAmount recipientAddress chain newMintId).2.orders =
      db.orders.map (fun o => if o.id == orderId then { o with status := "failed" } else o) := by
  rcases recipientAddress with _ | addr
  · cases hwa : (db.users.find? (fun u => u.id == userId)).bind User.walletAddress with
    | none => simp [mintTokens, hwa, DB.failOrder]
    | some w =>
        cases chain with
        | failure msg => simp [mintTokens, hwa, DB.failOrder]
        | success tx =>
            by_cases hany : db.mints.any (fun m => m.orderId == orderId)
            · simp [mintTokens, hwa, hany, DB.failOrder]
            · simp [mintTokens, hwa, hany] at h
  · cases chain with
    | failure msg => simp [mintTokens, DB.failOrder]
    | success tx =>
        by_cases hany : db.mints.any (fun m => m.orderId == orderId)
        · simp [mintTokens, hany, DB.failOrder]
        · simp [mintTokens, hany] at h

/-- C10 witness: with an order already "completed" and a userId that has
no wallet, the call throws and the completed order is downgraded to
"failed". -/
theorem c10_mint_error_path_witness :
    (mintTokens
        { dbSeed with
          orders := [{ id := "o1", userId := "u1", productId := "p1", status := "completed" }] }
        "o1" "nouser" 100 none (ChainOutcome.success "0xtx1") "m1").1 =
      Except.error (Err.custom "Usuario sin dirección de wallet" 400) ∧
    (mintTokens
        { dbSeed with
          orders := [{ id := "o1", userId := "u1", productId := "p1", status := "completed" }] }
        "o1" "nouser" 100 none (ChainOutcome.success "0xtx1") "m1").2.orders =
      ({ dbSeed with
         orders := [{ id := "o1", userId := "u1", productId := "p1",
                      status := "completed" }] } : DB).orders.map
        (fun o => if o.id == "o1" then { o with status := "failed" } else o) :=
  ⟨by decide,
   c10_mint_error_path
     { dbSeed with
       orders := [{ id := "o1", userId := "u1", productId := "p1", status := "completed" }] }
     "o1" "nouser" 100 none (ChainOutcome.success "0xtx1") "m1"
     (Err.custom "Usuario sin dirección de wallet" 400) (by decide)⟩

/-- C3: `redeemPerk(claimId, staffUserId)` succeeds iff the claim exists
and its `redeemedAt` is null; on success it stamps `redeemedAt` with the
current time and records the staff actor in the logged "Perk redeemed"
event; when `redeemedAt` is already set it fails with the
AlreadyRedeemed error and leaves the store unchanged; and a non-null
`redeemedAt` is never reverted or overwritten by any `redeemPerk` call. -/
theorem c3_redeemPerk_spec (db : DB) (claimId staffUserId : String) (now : Nat)
    (hwf : db.wf) :
    ((∃ r, (redeemPerk db claimId staffUserId now).1 = Except.ok r) ↔
      ∃ c ∈ db.claims, c.id = claimId ∧ c.redeemedAt = none) ∧
    (∀ c, c ∈ db.claims → c.id = claimId → c.redeemedAt = none →
      redeemPerk db claimId staffUserId now =
        (Except.ok { c with redeemedAt := some now },
         { db with
           claims := db.claims.map (fun x =>
             if x.id == claimId then { x with redeemedAt := some now } else x),
           logEvents := db.logEvents ++
             [LogEvent.perkRedeemed claimId c.perkId c.userId staffUserId now] })) ∧
    (∀ c, c ∈ db.claims → c.id = claimId → c.redeemedAt ≠ none →
      redeemPerk db claimId staffUserId now =
        (Except.error (Err.custom "Perk ya ha sido canjeado" 400), db)) ∧
    (∀ c t, c ∈ db.claims → c.redeemedAt = some t →
      ∃ c2 ∈ (redeemPerk db claimId staffUserId now).2.claims,
        c2.id = c.id ∧ c2.redeemedAt = some t) := by
  have hnd : (db.claims.map PerkClaim.id).Nodup := hwf.2.2.2.1
  refine ⟨⟨?_, ?_⟩, ?_, ?_, ?_⟩
  · rintro ⟨r, hr⟩
    cases hfind : db.claims.find? (fun c => c.id == claimId) with
    | none => simp [redeemPerk, hfind] at hr
    | some c =>
        cases hred : c.redeemedAt with
        | some t => simp [redeemPerk, hfind, hred] at hr
        | none =>
            exact ⟨c, List.mem_of_find?_eq_some hfind,
              by simpa using List.find?_some hfind, hred⟩
  · rintro ⟨c, hmem, hid, hred⟩
    have hfind := find?_key_unique PerkClaim.id claimId c hid db.claims hnd hmem
    exact ⟨{ c with redeemedAt := some now }, by simp [redeemPerk, hfind, hred]⟩
  · intro c hmem hid hred
    have hfind := find?_key_unique PerkClaim.id claimId c hid db.claims hnd hmem
    simp [redeemPerk, hfind, hred]
  · intro c hmem hid hred
    have hfind := find?_key_unique PerkClaim.id claimId c hid db.claims hnd hmem
    cases hrc : c.redeemedAt with
    | none => exact absurd hrc hred
    | some t => simp [redeemPerk, hfind, hrc]
  · intro c t hmem hct
    cases hfind : db.claims.find? (fun x => x.id == claimId) with
    | none => exact ⟨c, by simpa [redeemPerk, hfind] using hmem, rfl, hct⟩
    | some c0 =>
        cases hred : c0.redeemedAt with
        | some t0 => exact ⟨c, by simpa [redeemPerk, hfind, hred] using hmem, rfl, hct⟩
        | none =>
            by_cases hcid : c.id = claimId
            · have hfc := find?_key_unique PerkClaim.id claimId c hcid db.claims hnd hmem
              rw [hfind] at hfc
              cases hfc
              rw [hct] at hred
              cases hred
            · refine ⟨c, ?_, rfl, hct⟩
              simp only [redeemPerk, hfind, hred]
              have himg :
                  (if c.id == claimId then { c with redeemedAt := some now } else c) = c := by
                simp [hcid]
              have hmem2 :
                  (if c.id == claimId then { c with redeemedAt := some now } else c) ∈
                    db.claims.map (fun x =>
                      if x.id == claimId then { x with redeemedAt := some now } else x) :=
                List.mem_map_of_mem _ hmem
              rwa [himg] at hmem2

/-- C3 witness: on the concrete store, redeeming the unredeemed claim c1
succeeds and stamps time 5 while logging staff1; the claim c2 already
redeemed at time 3 is rejected with the AlreadyRedeemed error and the
store is unchanged. -/
theorem c3_redeemPerk_spec_witness :
    dbRedeem.wf ∧
    redeemPerk dbRedeem "c1" "staff1" 5 =
      (Except.ok { id := "c1", perkId := "pk1", userId := "u1", tokenCost := 5,
                   qrCode := "PERK_X_Y", redeemedAt := some 5 },
       { dbRedeem with
         claims := dbRedeem.claims.map (fun x =>
           if x.id == "c1" then { x with redeemedAt := some 5 } else x),
         logEvents := dbRedeem.logEvents ++
           [LogEvent.perkRedeemed "c1" "pk1" "u1" "staff1" 5] }) ∧
    redeemPerk dbRedeem "c2" "staff1" 9 =
      (Except.error (Err.custom "Perk ya ha sido canjeado" 400), dbRedeem) :=
  ⟨by decide,
   (c3_redeemPerk_spec dbRedeem "c1" "staff1" 5 (by decide)).2.1
     { id := "c1", perkId := "pk1", userId := "u1", tokenCost := 5,
       qrCode := "PERK_X_Y", redeemedAt := none }
     (by decide) rfl rfl,
   (c3_redeemPerk_spec dbRedeem "c2" "staff1" 9 (by decide)).2.2.1
     { id := "c2", perkId := "pk1", userId := "u2", tokenCost := 5,
       qrCode := "PERK_X_Z", redeemedAt := some 3 }
     (by decide) rfl (by simp)⟩

/-- C4: `castBallot(voteId, userId, optionId)` persists a ballot iff the
vote exists, is time-active (startAt ≤ now ≤ endAt), has `active = true`,
the option belongs to the vote, and no prior ballot exists for the
`(voteId, userId)` pair; a duplicate cast is rejected with the
"already voted" InvalidState-style error (not silently ignored) and no
second ballot is created. -/
theorem c4_castBallot_spec (db : DB) (voteId userId optionId : String) (now : Nat)
    (newBallotId : String) (hwf : db.wf) :
    ((∃ b, (castBallot db voteId userId optionId now newBallotId).1 = Except.ok b) ↔
      ((∃ v ∈ db.votes, v.id = voteId ∧ v.startAt ≤ now ∧ now ≤ v.endAt ∧ v.active = true) ∧
       (∃ o ∈ db.options, o.id = optionId ∧ o.voteId = voteId) ∧
       ¬ ∃ b ∈ db.ballots, b.voteId = voteId ∧ b.userId = userId)) ∧
    (∀ b, (castBallot db voteId userId optionId now newBallotId).1 = Except.ok b →
      b = { id := newBallotId, voteId := voteId, userId := userId,
            optionId := optionId, castAt := now } ∧
      (castBallot db voteId userId optionId now newBallotId).2 =
        { db with ballots := db.ballots ++ [b] }) ∧
    ((∃ b ∈ db.ballots, b.voteId = voteId ∧ b.userId = userId) →
      (castBallot db voteId userId optionId now newBallotId).2 = db) ∧
    ((∃ v ∈ db.votes, v.id = voteId ∧ v.startAt ≤ now ∧ now ≤ v.endAt ∧ v.active = true) →
     (∃ b ∈ db.ballots, b.voteId = voteId ∧ b.userId = userId) →
      (castBallot db voteId userId optionId now newBallotId).1 =
        Except.error (Err.custom "Usuario ya ha votado en esta votación" 400)) := by
  have hndv : (db.votes.map Vote.id).Nodup := hwf.2.2.2.2.1
  refine ⟨⟨?_, ?_⟩, ?_, ?_, ?_⟩
  · rintro ⟨b, hb⟩
    cases hfv : db.votes.find? (fun v => v.id == voteId) with
    | none => simp [castBallot, hfv] at hb
    | some v =>
        cases htw : (decide (now < v.startAt) || decide (v.endAt < now)) with
        | true => simp [castBallot, hfv, htw] at hb
        | false =>
            cases hact : v.active with
            | false => simp [castBallot, hfv, htw, hact] at hb
            | true =>
                cases hfb : db.ballots.find? (fun x => x.voteId == voteId && x.userId == userId) with
                | some b0 => simp [castBallot, hfv, htw, hact, hfb] at hb
                | none =>
                    cases hfo : db.options.find? (fun o => o.id == optionId && o.voteId == voteId) with
                    | none => simp [castBallot, hfv, htw, hact, hfb, hfo] at hb
                    | some o =>
                        have hvp := List.find?_some hfv
                        have hop := List.find?_some hfo
                        simp only [Bool.or_eq_false_iff, decide_eq_false_iff_not,
                          Nat.not_lt] at htw
                        refine ⟨⟨v, List.mem_of_find?_eq_some hfv, by simpa using hvp,
                          htw.1, htw.2, hact⟩, ?_, ?_⟩
                        · rw [Bool.and_eq_true] at hop
                          exact ⟨o, List.mem_of_find?_eq_some hfo,
                            by simpa using hop.1, by simpa using hop.2⟩
                        · rintro ⟨x, hxmem, hx1, hx2⟩
                          have := List.find?_eq_none.mp hfb x hxmem
                          simp [hx1, hx2] at this
  · rintro ⟨⟨v, hvmem, hvid, hs, he, hact⟩, ⟨o, homem, hoid, hov⟩, hnb⟩
    have hfv := find?_key_unique Vote.id voteId v hvid db.votes hndv hvmem
    have htw : (decide (now < v.startAt) || decide (v.endAt < now)) = false := by
      simp [Nat.not_lt.mpr hs, Nat.not_lt.mpr he]
    have hfb : db.ballots.find? (fun x => x.voteId == voteId && x.userId == userId) = none := by
      rw [List.find?_eq_none]
      intro x hxmem
      simp only [Bool.and_eq_true, beq_iff_eq, not_and]
      intro hx1 hx2
      exact hnb ⟨x, hxmem, hx1, hx2⟩
    have hfo : (db.options.find? (fun x => x.id == optionId && x.voteId == voteId)).isSome := by
      rw [List.find?_isSome]
      exact ⟨o, homem, by simp [hoid, hov]⟩
    obtain ⟨o0, hfo⟩ := Option.isSome_iff_exists.mp hfo
    exact ⟨{ id := newBallotId, voteId := voteId, userId := userId,
             optionId := optionId, castAt := now },
      by simp [castBallot, hfv, htw, hact, hfb, hfo]⟩
  · intro b hb
    cases hfv : db.votes.find? (fun v => v.id == voteId) with
    | none => simp [castBallot, hfv] at hb
    | some v =>
        cases htw : (decide (now < v.startAt) || decide (v.endAt < now)) with
        | true => simp [castBallot, hfv, htw] at hb
        | false =>
            cases hact : v.active with
            | false => simp [castBallot, hfv, htw, hact] at hb
            | true =>
                cases hfb : db.ballots.find? (fun x => x.voteId == voteId && x.userId == userId) with
                | some b0 => simp [castBallot, hfv, htw, hact, hfb] at hb
                | none =>
                    cases hfo : db.options.find? (fun o => o.id == optionId && o.voteId == voteId) with
                    | none => simp [castBallot, hfv, htw, hact, hfb, hfo] at hb
                    | some o =>
                        simp only [castBallot, hfv, htw, hact, hfb, hfo] at hb ⊢
                        simp at hb
                        exact ⟨hb.symm, by simp [castBallot, hfv, htw, hact, hfb, hfo, hb]⟩
  · rintro ⟨x, hxmem, hx1, hx2⟩
    have hfbs : (db.ballots.find? (fun y => y.voteId == voteId && y.userId == userId)).isSome := by
      rw [List.find?_isSome]
      exact ⟨x, hxmem, by simp [hx1, hx2]⟩
    obtain ⟨b0, hfb⟩ := Option.isSome_iff_exists.mp hfbs
    cases hfv : db.votes.find? (fun v => v.id == voteId) with
    | none => simp [castBallot, hfv]
    | some v =>
        cases htw : (decide (now < v.startAt) || decide (v.endAt < now)) with
        | true => simp [castBallot, hfv, htw]
        | false =>
            cases hact : v.active with
            | false => simp [castBallot, hfv, htw, hact]
            | true => simp [castBallot, hfv, htw, hact, hfb]
  · rintro ⟨v, hvmem, hvid, hs, he, hact⟩ ⟨x, hxmem, hx1, hx2⟩
    have hfv := find?_key_unique Vote.id voteId v hvid db.votes hndv hvmem
    have htw : (decide (now < v.startAt) || decide (v.endAt < now)) = false := by
      simp [Nat.not_lt.mpr hs, Nat.not_lt.mpr he]
    have hfbs : (db.ballots.find? (fun y => y.voteId == voteId && y.userId == userId)).isSome := by
      rw [List.find?_isSome]
      exact ⟨x, hxmem, by simp [hx1, hx2]⟩
    obtain ⟨b0, hfb⟩ := Option.isSome_iff_exists.mp hfbs
    simp [castBallot, hfv, htw, hact, hfb]

/-- C4 witness: on the concrete vote store, a fresh user u5 can cast on
option B, while the duplicate cast by u1 is rejected with the
"already voted" error. -/
theorem c4_castBallot_spec_witness :
    dbVote.wf ∧
    (∃ b, (castBallot dbVote "v1" "u5" "B" 5 "b9").1 = Except.ok b) ∧
    (castBallot dbVote "v1" "u1" "B" 5 "b9").1 =
      Except.error (Err.custom "Usuario ya ha votado en esta votación" 400) :=
  ⟨by decide,
   (c4_castBallot_spec dbVote "v1" "u5" "B" 5 "b9" (by decide)).1.mpr
     ⟨by decide, by decide, by decide⟩,
   (c4_castBallot_spec dbVote "v1" "u1" "B" 5 "b9" (by decide)).2.2.2
     (by decide) (by decide)⟩

/-- C5: `getVoteResults` returns, for each option of the vote, its exact
ballot count, with `totalVotes` the sum of the counts over the vote's
options, `percentage = votes / totalVotes * 100`, and every percentage 0
when `totalVotes = 0`. -/
theorem c5_getVoteResults_spec (db : DB) (voteId : String) (r : VoteResults)
    (h : getVoteResults db voteId = Except.ok r) :
    r.totalVotes =
      ((db.options.filter (fun o => o.voteId == voteId)).map
        (fun o => countBallots db o.id)).sum ∧
    (∀ e ∈ r.results, ∃ o ∈ db.options, o.voteId = voteId ∧ e.id = o.id ∧
      e.votes = countBallots db o.id) ∧
    (∀ o ∈ db.options, o.voteId = voteId →
      ∃ e ∈ r.results, e.id = o.id ∧ e.votes = countBallots db o.id) ∧
    (∀ e ∈ r.results,
      e.percentage =
        if r.totalVotes > 0 then ((e.votes : ℚ) / (r.totalVotes : ℚ)) * 100 else 0) ∧
    r.results.length = (db.options.filter (fun o => o.voteId == voteId)).length ∧
    (r.totalVotes = 0 → ∀ e ∈ r.results, e.percentage = 0) := by
  cases hfv : db.votes.find? (fun v => v.id == voteId) with
  | none => simp [getVoteResults, hfv] at h
  | some v =>
      simp only [getVoteResults, hfv, Except.ok.injEq] at h
      subst h
      have hperm := List.perm_insertionSort
        (fun a b : VoteOption × Nat => b.2 ≤ a.2)
        ((db.options.filter (fun o => o.voteId == voteId)).map
          (fun o => (o, countBallots db o.id)))
      refine ⟨?_, ?_, ?_, ?_, ?_, ?_⟩
      · have hsum := (hperm.map Prod.snd).sum_eq
        simpa [List.map_map, Function.comp] using hsum
      · intro e he
        simp only [List.mem_map] at he
        obtain ⟨oc, hoc, rfl⟩ := he
        have hoc2 := hperm.mem_iff.mp hoc
        simp only [List.mem_map] at hoc2
        obtain ⟨o, ho, rfl⟩ := hoc2
        have hof := List.mem_filter.mp ho
        exact ⟨o, hof.1, by simpa using hof.2, rfl, rfl⟩
      · intro o ho hov
        have hoc : (o, countBallots db o.id) ∈
            (db.options.filter (fun x => x.voteId == voteId)).map
              (fun x => (x, countBallots db x.id)) :=
          List.mem_map_of_mem _ (List.mem_filter.mpr ⟨ho, by simp [hov]⟩)
        exact ⟨_, List.mem_map_of_mem _ (hperm.mem_iff.mpr hoc), rfl, rfl⟩
      · intro e he
        simp only [List.mem_map] at he
        obtain ⟨oc, hoc, rfl⟩ := he
        rfl
      · simp [hperm.length_eq]
      · intro hz e he
        simp only [List.mem_map] at he
        obtain ⟨oc, hoc, rfl⟩ := he
        dsimp only at hz ⊢
        rw [if_neg (by omega)]

/-- C5 witness: on the concrete store with ballots A:3 and B:1, the
tally succeeds with totalVotes 4, per-option counts 3 and 1, and
percentages 75 and 25; the sum property follows from the theorem. -/
theorem c5_getVoteResults_spec_witness :
    getVoteResults dbVote "v1" = Except.ok resultsAB ∧
    resultsAB.totalVotes = 4 ∧
    resultsAB.results.map OptionResult.votes = [3, 1] ∧
    resultsAB.results.map OptionResult.percentage = [75, 25] ∧
    resultsAB.totalVotes =
      ((dbVote.options.filter (fun o => o.voteId == "v1")).map
        (fun o => countBallots dbVote o.id)).sum :=
  ⟨rfl, by decide, by decide,
   by
     simp [resultsAB, getVoteResults, dbVote, countBallots]
     norm_num,
   (c5_getVoteResults_spec dbVote "v1" resultsAB rfl).1⟩

/-- C6: `claimPerk(perkId, userId)` succeeds only when the perk exists
and is active and the user's oracle-read token balance covers the perk's
token cost; on success the persisted claim carries the perk's tokenCost
and a QR code fresh among all existing claims (unique by the modelled
constraint), and no ledger entry is written. -/
theorem c6_claimPerk_spec (db : DB) (perkId userId : String) (timestampMs : Nat)
    (random newClaimId : String) (c : PerkClaim)
    (h : (claimPerk db perkId userId timestampMs random newClaimId).1 = Except.ok c) :
    (∃ p ∈ db.perks, p.id = perkId ∧ p.active = true ∧ c.tokenCost = p.tokenCost ∧
      ∃ u ∈ db.users, u.id = userId ∧ ∃ w, u.walletAddress = some w ∧
        p.tokenCost ≤ getTokenBalance db w) ∧
    c.qrCode = generateQRCode timestampMs random ∧
    (∀ c2 ∈ db.claims, c2.qrCode ≠ c.qrCode) ∧
    (claimPerk db perkId userId timestampMs random newClaimId).2 =
      { db with claims := db.claims ++ [c] } ∧
    (claimPerk db perkId userId timestampMs random newClaimId).2.ledger = db.ledger := by
  cases hfp : db.perks.find? (fun p => p.id == perkId && p.active) with
  | none => simp [claimPerk, getPerkById, hfp] at h
  | some p =>
      cases hfu : (db.users.find? (fun u => u.id == userId)).bind User.walletAddress with
      | none => simp [claimPerk, getPerkById, hfp, hfu] at h
      | some w =>
          by_cases hbal : getTokenBalance db w < p.tokenCost
          · simp [claimPerk, getPerkById, hfp, hfu, hbal] at h
          · cases hqr : db.claims.any
                (fun x => x.qrCode == generateQRCode timestampMs random) with
            | true => simp [claimPerk, getPerkById, hfp, hfu, hbal, hqr] at h
            | false =>
                simp only [claimPerk, getPerkById, hfp, hfu, if_neg hbal, hqr,
                  Bool.false_eq_true, if_false, Except.ok.injEq] at h
                subst h
                have hpp := List.find?_some hfp
                rw [Bool.and_eq_true] at hpp
                obtain ⟨u, hfu2, huw⟩ := Option.bind_eq_some.mp hfu
                have hup := List.find?_some hfu2
                refine ⟨⟨p, List.mem_of_find?_eq_some hfp, by simpa using hpp.1, hpp.2,
                  rfl, u, List.mem_of_find?_eq_some hfu2, by simpa using hup, w, huw,
                  Nat.le_of_not_lt hbal⟩, rfl, ?_, ?_, ?_⟩
                · intro c2 hc2 hcq
                  have : db.claims.any
                      (fun x => x.qrCode == generateQRCode timestampMs random) = true :=
                    List.any_eq_true.mpr ⟨c2, hc2, by simp [hcq]⟩
                  rw [hqr] at this
                  cases this
                · simp [claimPerk, getPerkById, hfp, hfu, if_neg hbal, hqr]
                · simp [claimPerk, getPerkById, hfp, hfu, if_neg hbal, hqr]

/-- C6 witness: on the concrete store (user with 7 tokens, perk costing
5), the claim succeeds, carries tokenCost 5 and the generated QR code,
and the ledger stays empty. -/
theorem c6_claimPerk_spec_witness :
    (claimPerk dbPerkWallet "pk1" "u1" 1700000000000 "0badf00dcafebabe" "c9").1 =
      Except.ok
        { id := "c9", perkId := "pk1", userId := "u1", tokenCost := 5,
          qrCode := "PERK_LOYW3V28_0BADF00DCAFEBABE", redeemedAt := none } ∧
    ((∃ p ∈ dbPerkWallet.perks, p.id = "pk1" ∧ p.active = true ∧
      ({ id := "c9", perkId := "pk1", userId := "u1", tokenCost := 5,
         qrCode := "PERK_LOYW3V28_0BADF00DCAFEBABE",
         redeemedAt := none } : PerkClaim).tokenCost = p.tokenCost ∧
      ∃ u ∈ dbPerkWallet.users, u.id = "u1" ∧ ∃ w, u.walletAddress = some w ∧
        p.tokenCost ≤ getTokenBalance dbPerkWallet w) ∧
     ({ id := "c9", perkId := "pk1", userId := "u1", tokenCost := 5,
        qrCode := "PERK_LOYW3V28_0BADF00DCAFEBABE",
        redeemedAt := none } : PerkClaim).qrCode =
       generateQRCode 1700000000000 "0badf00dcafebabe" ∧
     (∀ c2 ∈ dbPerkWallet.claims,
       c2.qrCode ≠ ({ id := "c9", perkId := "pk1", userId := "u1", tokenCost := 5,
                      qrCode := "PERK_LOYW3V28_0BADF00DCAFEBABE",
                      redeemedAt := none } : PerkClaim).qrCode) ∧
     (claimPerk dbPerkWallet "pk1" "u1" 1700000000000 "0badf00dcafebabe" "c9").2 =
       { dbPerkWallet with
         claims := dbPerkWallet.claims ++
           [{ id := "c9", perkId := "pk1", userId := "u1", tokenCost := 5,
              qrCode := "PERK_LOYW3V28_0BADF00DCAFEBABE", redeemedAt := none }] } ∧
     (claimPerk dbPerkWallet "pk1" "u1" 1700000000000 "0badf00dcafebabe" "c9").2.ledger =
       dbPerkWallet.ledger) :=
  ⟨by decide,
   c6_claimPerk_spec dbPerkWallet "pk1" "u1" 1700000000000 "0badf00dcafebabe" "c9"
     { id := "c9", perkId := "pk1", userId := "u1", tokenCost := 5,
       qrCode := "PERK_LOYW3V28_0BADF00DCAFEBABE", redeemedAt := none }
     (by decide)⟩

/-- C8 amended: removing a vote option that any ballot references is
rejected and deletes nothing; `deletePerk`, however, never checks
claims — for any existing perk it succeeds, soft-deactivating the perk
(active := false) while the perk row and all claims remain. -/
theorem c8_amended_removal_spec (db : DB) (optionId perkId : String) :
    (countBallots db optionId > 0 →
      removeVoteOption db optionId =
        (Except.error (Err.custom "No se puede eliminar una opción que ya tiene votos" 400),
         db)) ∧
    ((∃ p ∈ db.perks, p.id = perkId) →
      (deletePerk db perkId).1 = Except.ok () ∧
      (deletePerk db perkId).2.claims = db.claims ∧
      (deletePerk db perkId).2.perks =
        db.perks.map (fun p => if p.id == perkId then { p with active := false } else p)) := by
  constructor
  · intro hpos
    have hlen : 0 < (db.ballots.filter (fun b => b.optionId == optionId)).length := hpos
    simp [removeVoteOption, hlen]
  · rintro ⟨p, hp, hpid⟩
    have hany : db.perks.any (fun x => x.id == perkId) = true :=
      List.any_eq_true.mpr ⟨p, hp, by simp [hpid]⟩
    refine ⟨?_, ?_, ?_⟩ <;> simp [deletePerk, hany]

/-- C8 amended witness: on the concrete store, the option with one
ballot cannot be removed, while the perk with one claim is deactivated
successfully with its claims intact. -/
theorem c8_amended_removal_spec_witness :
    countBallots dbRemoval "A" > 0 ∧
    (∃ p ∈ dbRemoval.perks, p.id = "pk1") ∧
    removeVoteOption dbRemoval "A" =
      (Except.error (Err.custom "No se puede eliminar una opción que ya tiene votos" 400),
       dbRemoval) ∧
    ((deletePerk dbRemoval "pk1").1 = Except.ok () ∧
     (deletePerk dbRemoval "pk1").2.claims = dbRemoval.claims ∧
     (deletePerk dbRemoval "pk1").2.perks =
       dbRemoval.perks.map
         (fun p => if p.id == "pk1" then { p with active := false } else p)) :=
  ⟨by decide, by decide,
   (c8_amended_removal_spec dbRemoval "A" "pk1").1 (by decide),
   (c8_amended_removal_spec dbRemoval "A" "pk1").2 (by decide)⟩

/-- Scanner equation: end of line emits the current field. -/
theorem parseLine_nil (mode : Bool) (acc : List Char) :
    parseLine mode acc [] = [String.mk acc.reverse] := by
  rw [parseLine.eq_def]

/-- Scanner equation: a comma outside quotes ends the field. -/
theorem parseLine_comma (acc t : List Char) :
    parseLine false acc (',' :: t) = String.mk acc.reverse :: parseLine false [] t := by
  rw [parseLine.eq_def]; simp

/-- Scanner equation: a quote outside quotes opens a quoted section. -/
theorem parseLine_openQ (acc t : List Char) :
    parseLine false acc ('"' :: t) = parseLine true acc t := by
  rw [parseLine.eq_def]; simp

/-- Scanner equation: an ordinary character is accumulated. -/
theorem parseLine_other (c : Char) (acc t : List Char) (h1 : c ≠ ',') (h2 : c ≠ '"') :
    parseLine false acc (c :: t) = parseLine false (c :: acc) t := by
  rw [parseLine.eq_def]; simp [h1, h2]

/-- Scanner equation: a doubled quote inside quotes decodes to one quote. -/
theorem parseLine_qq (acc t : List Char) :
    parseLine true acc ('"' :: '"' :: t) = parseLine true ('"' :: acc) t := by
  rw [parseLine.eq_def]; simp

/-- Scanner equation: a closing quote at end of line. -/
theorem parseLine_closeQ_nil (acc : List Char) :
    parseLine true acc ['"'] = parseLine false acc [] := by
  rw [parseLine.eq_def]; simp

/-- Scanner equation: a quote followed by a non-quote closes the section. -/
theorem parseLine_closeQ (acc : List Char) (c2 : Char) (t : List Char) (h : c2 ≠ '"') :
    parseLine true acc ('"' :: c2 :: t) = parseLine false acc (c2 :: t) := by
  rw [parseLine.eq_def]
  simp [h]

/-- Scanner equation: an ordinary character inside quotes is accumulated. -/
theorem parseLine_inQ (c : Char) (acc t : List Char) (h : c ≠ '"') :
    parseLine true acc (c :: t) = parseLine true (c :: acc) t := by
  rw [parseLine.eq_def]; simp [h]

/-- Scanning a comma-free, quote-free field: the scanner emits the field
at the comma and continues. -/
theorem parseLine_plain_comma (cs : List Char) :
    ∀ acc rest : List Char, (∀ c ∈ cs, ¬(c = ',' ∨ c = '"')) →
      parseLine false acc (cs ++ ',' :: rest) =
        String.mk (acc.reverse ++ cs) :: parseLine false [] rest := by
  induction cs with
  | nil => intro acc rest _; rw [List.nil_append, parseLine_comma]; simp
  | cons c t ih =>
      intro acc rest h
      have hc := h c (List.mem_cons_self c t)
      push_neg at hc
      rw [List.cons_append, parseLine_other c acc _ hc.1 hc.2,
        ih (c :: acc) rest (fun x hx => h x (List.mem_cons_of_mem c hx))]
      simp

/-- Scanning the final comma-free, quote-free field of a line. -/
theorem parseLine_plain_last (cs : List Char) :
    ∀ acc : List Char, (∀ c ∈ cs, ¬(c = ',' ∨ c = '"')) →
      parseLine false acc cs = [String.mk (acc.reverse ++ cs)] := by
  induction cs with
  | nil => intro acc _; rw [parseLine_nil]; simp
  | cons c t ih =>
      intro acc h
      have hc := h c (List.mem_cons_self c t)
      push_neg at hc
      rw [parseLine_other c acc t hc.1 hc.2,
        ih (c :: acc) (fun x hx => h x (List.mem_cons_of_mem c hx))]
      simp

/-- Scanning a quote-escaped section followed by the closing quote and a
comma recovers the original characters. -/
theorem parseLine_quoted (m : List Char) :
    ∀ acc rest : List Char,
      parseLine true acc (escapeQuotes m ++ '"' :: ',' :: rest) =
        parseLine false (m.reverse ++ acc) (',' :: rest) := by
  induction m with
  | nil =>
      intro acc rest
      rw [escapeQuotes, List.nil_append,
        parseLine_closeQ acc ',' rest (by decide)]
      simp
  | cons c t ih =>
      intro acc rest
      by_cases hc : c = '"'
      · subst hc
        rw [escapeQuotes, if_pos rfl, List.cons_append, List.cons_append,
          parseLine_qq, ih ('"' :: acc) rest]
        simp
      · rw [escapeQuotes, if_neg hc, List.cons_append,
          parseLine_inQ c acc _ hc, ih (c :: acc) rest]
        simp

/-- Re-parsing the rendered metadata field recovers the JSON text (the
empty field for null metadata). -/
theorem parseLine_metadata (md : Option String) (rest : List Char) :
    parseLine false [] ((renderMetadata md).data ++ ',' :: rest) =
      md.getD "" :: parseLine false [] rest := by
  cases md with
  | none => rw [renderMetadata]; simpa using parseLine_comma [] rest
  | some m =>
      have hdata : (renderMetadata (some m)).data =
          '"' :: (escapeQuotes m.data ++ ['"']) := by
        simp [renderMetadata, String.data_append]
      rw [hdata, List.cons_append, List.append_assoc, List.cons_append, List.nil_append,
        parseLine_openQ, parseLine_quoted m.data [] rest, List.append_nil,
        parseLine_comma]
      cases m with
      | mk l => simp

/-- A csvPlain string contains no comma and no quote. -/
theorem csvPlain_not_cq (s : String) (h : csvPlain s = true) :
    ∀ c ∈ s.data, ¬(c = ',' ∨ c = '"') := by
  intro c hc hor
  simp only [csvPlain, List.all_eq_true] at h
  have h2 := h c hc
  rcases hor with h1 | h1 <;> simp [h1] at h2

/-- A csvPlain string contains no newline. -/
theorem csvPlain_not_nl (s : String) (h : csvPlain s = true) :
    ∀ c ∈ s.data, c ≠ '\n' := by
  intro c hc h1
  simp only [csvPlain, List.all_eq_true] at h
  have h2 := h c hc
  simp [h1] at h2

/-- Scanning a csvPlain field up to a comma yields the field itself. -/
theorem parseLine_field (s : String) {rest : List Char} (h : csvPlain s = true) :
    parseLine false [] (s.data ++ ',' :: rest) = s :: parseLine false [] rest := by
  have h2 := parseLine_plain_comma s.data [] rest (csvPlain_not_cq s h)
  cases s with
  | mk l => simpa using h2

/-- Scanning a csvPlain final field yields the field itself. -/
theorem parseLine_lastField (s : String) (h : csvPlain s = true) :
    parseLine false [] s.data = [s] := by
  have h2 := parseLine_plain_last s.data [] (csvPlain_not_cq s h)
  cases s with
  | mk l => simpa using h2

/-- The characters of an eight-field comma-joined line, as nested
field/comma chunks. -/
theorem rowChunks (sid skind srefId sdir samt scur smd siso : String) :
    (sid ++ "," ++ skind ++ "," ++ srefId ++ "," ++ sdir ++ "," ++ samt ++ "," ++
      scur ++ "," ++ smd ++ "," ++ siso).data =
      sid.data ++ ',' :: (skind.data ++ ',' :: (srefId.data ++ ',' ::
        (sdir.data ++ ',' :: (samt.data ++ ',' ::
          (scur.data ++ ',' :: (smd.data ++ ',' :: siso.data)))))) := by
  simp only [String.data_append, List.append_assoc]
  rfl

/-- The characters of a rendered CSV row, as nested field/comma chunks. -/
theorem renderRow_data (e : LedgerEntry) :
    (renderRow e).data =
      e.id.data ++ ',' :: (e.kind.data ++ ',' :: (e.refId.data ++ ',' ::
        (e.direction.data ++ ',' :: ((toString e.amount).data ++ ',' ::
          (e.currency.data ++ ',' :: ((renderMetadata e.metadataJson).data ++ ',' ::
            (isoString e.createdAt).data)))))) :=
  rowChunks e.id e.kind e.refId e.direction (toString e.amount) e.currency
    (renderMetadata e.metadataJson) (isoString e.createdAt)

/-- Re-parsing one rendered row recovers the entry's field values. -/
theorem parseLine_renderRow (e : LedgerEntry) (hs : csvSafe e = true) :
    parseLine false [] (renderRow e).data = entryFields e := by
  simp only [csvSafe, Bool.and_eq_true] at hs
  obtain ⟨⟨⟨⟨⟨⟨⟨h1, h2⟩, h3⟩, h4⟩, h5⟩, h6⟩, h7⟩, _⟩ := hs
  rw [renderRow_data, parseLine_field e.id h1, parseLine_field e.kind h2,
    parseLine_field e.refId h3, parseLine_field e.direction h4,
    parseLine_field (toString e.amount) h5, parseLine_field e.currency h6,
    parseLine_metadata e.metadataJson, parseLine_lastField (isoString e.createdAt) h7,
    entryFields]

/-- Splitting a newline-free line yields just that line. -/
theorem splitOnNL_no_nl (cs : List Char) (h : '\n' ∉ cs) : splitOnNL cs = [cs] := by
  induction cs with
  | nil => rfl
  | cons c t ih =>
      have hc : ¬ c = '\n' := fun hh => h (hh ▸ List.mem_cons_self c t)
      rw [splitOnNL, if_neg hc, ih (fun hm => h (List.mem_cons_of_mem c hm))]

/-- Splitting at the first newline of a newline-free prefix. -/
theorem splitOnNL_append (cs : List Char) (rest : List Char) (h : '\n' ∉ cs) :
    splitOnNL (cs ++ '\n' :: rest) = cs :: splitOnNL rest := by
  induction cs with
  | nil => rw [List.nil_append, splitOnNL, if_pos rfl]
  | cons c t ih =>
      have hc : ¬ c = '\n' := fun hh => h (hh ▸ List.mem_cons_self c t)
      rw [List.cons_append, splitOnNL, if_neg hc,
        ih (fun hm => h (List.mem_cons_of_mem c hm))]

/-- Splitting the newline-join of newline-free lines recovers the lines. -/
theorem splitOnNL_joinNL (rows : List String) :
    rows ≠ [] → (∀ r ∈ rows, '\n' ∉ r.data) →
      splitOnNL (joinNL rows).data = rows.map String.data := by
  induction rows with
  | nil => intro hne _; exact absurd rfl hne
  | cons s t ih =>
      intro _ h
      cases t with
      | nil =>
          rw [show joinNL [s] = s from rfl,
            splitOnNL_no_nl s.data (h s (List.mem_cons_self s []))]
          rfl
      | cons s2 t2 =>
          rw [show joinNL (s :: s2 :: t2) = s ++ "\n" ++ joinNL (s2 :: t2) from rfl]
          have hd : (s ++ "\n" ++ joinNL (s2 :: t2)).data =
              s.data ++ '\n' :: (joinNL (s2 :: t2)).data := by
            rw [String.data_append, String.data_append,
              show ("\n" : String).data = ['\n'] from rfl, List.append_assoc]
            rfl
          rw [hd, splitOnNL_append s.data _ (h s (List.mem_cons_self s (s2 :: t2))),
            ih (by simp) (fun r hr => h r (List.mem_cons_of_mem s hr))]
          rfl

/-- Every character of a quote-escaped list is from the original or a
quote. -/
theorem mem_escapeQuotes (l : List Char) (c : Char) :
    c ∈ escapeQuotes l → c ∈ l ∨ c = '"' := by
  induction l with
  | nil => intro h; rw [escapeQuotes] at h; cases h
  | cons a t ih =>
      intro h
      rw [escapeQuotes] at h
      by_cases ha : a = '"'
      · rw [if_pos ha] at h
        rcases List.mem_cons.mp h with h1 | h1
        · exact Or.inr h1
        · rcases List.mem_cons.mp h1 with h2 | h2
          · exact Or.inr h2
          · rcases ih h2 with h3 | h3
            · exact Or.inl (List.mem_cons_of_mem a h3)
            · exact Or.inr h3
      · rw [if_neg ha] at h
        rcases List.mem_cons.mp h with h1 | h1
        · exact Or.inl (h1 ▸ List.mem_cons_self a t)
        · rcases ih h1 with h3 | h3
          · exact Or.inl (List.mem_cons_of_mem a h3)
          · exact Or.inr h3

/-- The components packed into `csvSafe`, in usable form. -/
theorem csvSafe_parts (e : LedgerEntry) (hs : csvSafe e = true) :
    csvPlain e.id = true ∧ csvPlain e.kind = true ∧ csvPlain e.refId = true ∧
    csvPlain e.direction = true ∧ csvPlain (toString e.amount) = true ∧
    csvPlain e.currency = true ∧ csvPlain (isoString e.createdAt) = true ∧
    (∀ m, e.metadataJson = some m → ∀ c ∈ m.data, ¬ c = '\n') := by
  simp only [csvSafe, Bool.and_eq_true] at hs
  obtain ⟨⟨⟨⟨⟨⟨⟨h1, h2⟩, h3⟩, h4⟩, h5⟩, h6⟩, h7⟩, h8⟩ := hs
  refine ⟨h1, h2, h3, h4, h5, h6, h7, ?_⟩
  intro m hm c hc hnl
  rw [hm] at h8
  simp only [List.all_eq_true] at h8
  have := h8 c hc
  simp [hnl] at this

/-- The rendered metadata field contains no newline when the JSON text
contains none. -/
theorem renderMetadata_no_nl (md : Option String)
    (h : ∀ m, md = some m → ∀ c ∈ m.data, ¬ c = '\n') :
    '\n' ∉ (renderMetadata md).data := by
  cases md with
  | none => intro hm; cases hm
  | some m =>
      have hdata : (renderMetadata (some m)).data =
          '"' :: (escapeQuotes m.data ++ ['"']) := by
        simp [renderMetadata, String.data_append]
      rw [hdata]
      intro hm
      rcases List.mem_cons.mp hm with h1 | h1
      · exact absurd h1 (by decide)
      · rcases List.mem_append.mp h1 with h2 | h2
        · rcases mem_escapeQuotes m.data '\n' h2 with h3 | h3
          · exact h m rfl '\n' h3 rfl
          · exact absurd h3 (by decide)
        · rcases List.mem_cons.mp h2 with h3 | h3
          · exact absurd h3 (by decide)
          · cases h3

/-- A rendered row contains no newline. -/
theorem renderRow_no_nl (e : LedgerEntry) (hs : csvSafe e = true) :
    '\n' ∉ (renderRow e).data := by
  obtain ⟨h1, h2, h3, h4, h5, h6, h7, h8⟩ := csvSafe_parts e hs
  rw [renderRow_data]
  intro hm
  rcases List.mem_append.mp hm with h | h
  · exact csvPlain_not_nl e.id h1 '\n' h rfl
  rcases List.mem_cons.mp h with h | h
  · exact absurd h (by decide)
  rcases List.mem_append.mp h with h | h
  · exact csvPlain_not_nl e.kind h2 '\n' h rfl
  rcases List.mem_cons.mp h with h | h
  · exact absurd h (by decide)
  rcases List.mem_append.mp h with h | h
  · exact csvPlain_not_nl e.refId h3 '\n' h rfl
  rcases List.mem_cons.mp h with h | h
  · exact absurd h (by decide)
  rcases List.mem_append.mp h with h | h
  · exact csvPlain_not_nl e.direction h4 '\n' h rfl
  rcases List.mem_cons.mp h with h | h
  · exact absurd h (by decide)
  rcases List.mem_append.mp h with h | h
  · exact csvPlain_not_nl (toString e.amount) h5 '\n' h rfl
  rcases List.mem_cons.mp h with h | h
  · exact absurd h (by decide)
  rcases List.mem_append.mp h with h | h
  · exact csvPlain_not_nl e.currency h6 '\n' h rfl
  rcases List.mem_cons.mp h with h | h
  · exact absurd h (by decide)
  rcases List.mem_append.mp h with h | h
  · exact renderMetadata_no_nl e.metadataJson h8 h
  rcases List.mem_cons.mp h with h | h
  · exact absurd h (by decide)
  · exact csvPlain_not_nl (isoString e.createdAt) h7 '\n' h rfl

/-- A rendered row is never the empty line. -/
theorem renderRow_ne_nil (e : LedgerEntry) : (renderRow e).data ≠ [] := by
  rw [renderRow_data]
  intro h
  rcases List.append_eq_nil.mp h with ⟨_, h2⟩
  cases h2

/-- A nonempty list of nonempty lines never ends in the empty line. -/
theorem getLast?_ne_empty (l : List (List Char)) :
    ∀ a, (∀ x ∈ l, x ≠ []) → l ≠ [] → (a :: l).getLast? ≠ some [] := by
  induction l with
  | nil => intro a _ hne; exact absurd rfl hne
  | cons b t ih =>
      intro a h _
      rw [List.getLast?_cons_cons]
      cases t with
      | nil =>
          intro hc
          exact h b (List.mem_cons_self b []) (by simpa using hc)
      | cons c t2 =>
          exact ih b (fun x hx => h x (List.mem_cons_of_mem b hx)) (by simp)

/-- Scanning the header line yields the eight header fields. -/
theorem parseLine_header :
    parseLine false []
      ("ID,Kind,Reference ID,Direction,Amount,Currency,Metadata,Created At" : String).data =
      headerFields := by
  rw [show ("ID,Kind,Reference ID,Direction,Amount,Currency,Metadata,Created At" :
        String).data =
      ("ID" : String).data ++ ',' :: (("Kind" : String).data ++ ',' ::
        (("Reference ID" : String).data ++ ',' :: (("Direction" : String).data ++ ',' ::
          (("Amount" : String).data ++ ',' :: (("Currency" : String).data ++ ',' ::
            (("Metadata" : String).data ++ ',' :: ("Created At" : String).data))))))
      from rfl]
  rw [parseLine_field "ID" (by decide), parseLine_field "Kind" (by decide),
    parseLine_field "Reference ID" (by decide), parseLine_field "Direction" (by decide),
    parseLine_field "Amount" (by decide), parseLine_field "Currency" (by decide),
    parseLine_field "Metadata" (by decide),
    parseLine_lastField "Created At" (by decide)]
  rfl

/-- C7: `exportLedgerCSV` emits exactly the header row
`ID,Kind,Reference ID,Direction,Amount,Currency,Metadata,Created At`
followed by one row per exported ledger entry in the source's field
order, with the metadata JSON-escaped as a quoted field; re-parsing the
CSV yields the header plus one row per entry whose field values are the
entries' values (metadata commas and quotes included), and with no date
filter the number of data rows equals the number of ledger entries. -/
theorem c7_exportLedgerCSV_roundTrip (db : DB) (startDate endDate : Option Nat)
    (hsafe : ∀ e ∈ db.ledger, csvSafe e = true) :
    (∃ rest, exportLedgerCSV db startDate endDate =
      "ID,Kind,Reference ID,Direction,Amount,Currency,Metadata,Created At\n" ++ rest) ∧
    parseCSV (exportLedgerCSV db startDate endDate) =
      headerFields :: (exportRows db startDate endDate).map entryFields ∧
    (exportRows db none none).length = db.ledger.length := by
  have hmemL : ∀ e ∈ exportRows db startDate endDate, e ∈ db.ledger := by
    intro e he
    unfold exportRows at he
    exact (List.mem_filter.mp ((List.perm_insertionSort _ _).mem_iff.mp he)).1
  refine ⟨⟨joinNL ((exportRows db startDate endDate).map renderRow), rfl⟩, ?_, ?_⟩
  · unfold exportLedgerCSV
    cases hrows : exportRows db startDate endDate with
    | nil =>
        show parseCSV (csvHeaders ++ joinNL (List.map renderRow [])) =
          headerFields :: List.map entryFields []
        rw [show joinNL (List.map renderRow ([] : List LedgerEntry)) = "" from rfl]
        simp only [parseCSV]
        rw [show (csvHeaders ++ "").data =
          ("ID,Kind,Reference ID,Direction,Amount,Currency,Metadata,Created At" :
            String).data ++ '\n' :: ([] : List Char) from rfl]
        rw [splitOnNL_append _ _ (by decide),
          show splitOnNL ([] : List Char) = [[]] from rfl,
          if_pos (by rfl :
            (("ID,Kind,Reference ID,Direction,Amount,Currency,Metadata,Created At" :
              String).data :: [([] : List Char)]).getLast? = some [])]
        rw [show (("ID,Kind,Reference ID,Direction,Amount,Currency,Metadata,Created At" :
            String).data :: [([] : List Char)]).dropLast =
          [("ID,Kind,Reference ID,Direction,Amount,Currency,Metadata,Created At" :
            String).data] from rfl]
        rw [List.map_cons, List.map_nil, parseLine_header]
        rfl
    | cons e0 tl =>
        rw [hrows] at hmemL
        have hsafeR : ∀ e ∈ e0 :: tl, csvSafe e = true := fun e he => hsafe e (hmemL e he)
        have hnl : ∀ r ∈ (e0 :: tl).map renderRow, '\n' ∉ r.data := by
          intro r hr
          obtain ⟨e, he, rfl⟩ := List.mem_map.mp hr
          exact renderRow_no_nl e (hsafeR e he)
        have hexp : (csvHeaders ++ joinNL ((e0 :: tl).map renderRow)).data =
            ("ID,Kind,Reference ID,Direction,Amount,Currency,Metadata,Created At" :
              String).data ++
              '\n' :: (joinNL ((e0 :: tl).map renderRow)).data := by
          rw [String.data_append,
            show csvHeaders.data =
              ("ID,Kind,Reference ID,Direction,Amount,Currency,Metadata,Created At" :
                String).data ++ ['\n'] from rfl,
            List.append_assoc]
          rfl
        have hjoin := splitOnNL_joinNL ((e0 :: tl).map renderRow) (by simp) hnl
        have hlines : splitOnNL (csvHeaders ++ joinNL ((e0 :: tl).map renderRow)).data =
            ("ID,Kind,Reference ID,Direction,Amount,Currency,Metadata,Created At" :
              String).data :: ((e0 :: tl).map renderRow).map String.data := by
          rw [hexp, splitOnNL_append _ _ (by decide), hjoin]
        have hlast :
            (("ID,Kind,Reference ID,Direction,Amount,Currency,Metadata,Created At" :
              String).data :: ((e0 :: tl).map renderRow).map String.data).getLast? ≠
              some [] := by
          apply getLast?_ne_empty
          · intro x hx
            obtain ⟨r, hr, rfl⟩ := List.mem_map.mp hx
            obtain ⟨e, he, rfl⟩ := List.mem_map.mp hr
            exact renderRow_ne_nil e
          · simp
        have hmaps : ∀ l : List LedgerEntry, (∀ e ∈ l, csvSafe e = true) →
            ((l.map renderRow).map String.data).map (parseLine false []) =
              l.map entryFields := by
          intro l
          induction l with
          | nil => intro _; rfl
          | cons a t ih =>
              intro hl
              rw [List.map_cons, List.map_cons, List.map_cons,
                parseLine_renderRow a (hl a (List.mem_cons_self a t)),
                ih (fun e he => hl e (List.mem_cons_of_mem a he)), List.map_cons]
        simp only [parseCSV]
        rw [hlines, if_neg hlast, List.map_cons]
        rw [hmaps (e0 :: tl) hsafeR, parseLine_header]
  · unfold exportRows
    rw [(List.perm_insertionSort _ _).length_eq]
    exact congrArg List.length (List.filter_eq_self.mpr (fun a _ => rfl))

/-- C7 witness: on the concrete two-entry store — one entry carrying a
metadata value with commas and quotes — re-parsing the export yields the
header plus the two rows, whose recovered field values are exactly the
entries' values, and the row count equals the entry count. -/
theorem c7_exportLedgerCSV_roundTrip_witness :
    (∀ e ∈ dbLedgerTwo.ledger, csvSafe e = true) ∧
    parseCSV (exportLedgerCSV dbLedgerTwo none none) =
      headerFields :: (exportRows dbLedgerTwo none none).map entryFields ∧
    (exportRows dbLedgerTwo none none).map entryFields =
      [["e2", "mint", "o1", "out", "100", "TOKEN", "", "2023-11-14T22:13:21.000Z"],
       ["e1", "payment", "o1", "in", "50", "EUR",
        "\x7b\"status\":\"completed\",\"provider\":\"stripe\"\x7d",
        "2023-11-14T22:13:20.000Z"]] ∧
    (exportRows dbLedgerTwo none none).length = dbLedgerTwo.ledger.length :=
  ⟨by decide,
   (c7_exportLedgerCSV_roundTrip dbLedgerTwo none none (by decide)).2.1,
   by decide,
   (c7_exportLedgerCSV_roundTrip dbLedgerTwo none none (by decide)).2.2⟩

/-- C8 counterexample: on a store whose perk pk1 has one claim,
`deletePerk("pk1")` succeeds — refuting "for every perk with at least
one PerkClaim, deletePerk fails". -/
theorem c8_counterexample :
    dbRemoval.claims.map PerkClaim.perkId = ["pk1"] ∧
    (deletePerk dbRemoval "pk1").1 = Except.ok () := by
  decide

end Bejaus
